import Mathlib

/-!
Shallow embedding of `src/app/scripts/controllers/detect-tokens.js`
(`DetectTokensController` from the MetaMask browser extension).

Conventions used throughout:
* JS `undefined` is modelled as `Option.none`; a JS value that may be
  `undefined` gets an `Option` type.
* A JS expression that throws a `TypeError` (property access on
  `undefined`, method call on `undefined`) is modelled with
  `Except JsError`; `async` functions that reject are `Except` values.
* Machine numbers in this controller are array indices, millisecond
  intervals and token balances (unsigned big integers from the balance
  contract); all are modelled as `Nat`, no overflow is possible.
* The balance oracle (`_getTokenBalances`, a single batched on-chain
  call) is an external collaborator and is passed in as a function
  parameter; its failure is an `Except.error` that the controller
  catches.
-/

namespace DetectTokens

/-- Errors a detection pass can raise: the only failure mode of the
embedded JS code itself is a `TypeError` from dereferencing
`undefined`. -/
inductive JsError where
  | typeError
deriving Repr, DecidableEq

/-- JS truthiness of a possibly-`undefined` boolean (`undefined` is
falsy). -/
def jsTruthyBool : Option Bool → Bool
  | none => false
  | some b => b

/-- JS truthiness of a possibly-`undefined` string (`undefined` and the
empty string are falsy). -/
def jsTruthyStr : Option String → Bool
  | none => false
  | some s => !(s == "")

/-- JS `String.prototype.toLowerCase` on the character content of a
string (written with structural recursion over the character list so
that concrete instances evaluate). -/
def jsToLower (s : String) : String := ⟨s.data.map Char.toLower⟩

/-- Modelled from the spec: `isEqualCaseInsensitive` is imported from
`ui/helpers/utils/util.js`, which is not part of the provided source.
The spec (§4.2) requires case-insensitive address comparison: two
strings are equal regardless of letter case.  A non-string operand
(JS `undefined`, modelled as `none`) is not equal to anything. -/
def isEqualCaseInsensitive : Option String → Option String → Bool
  | some a, some b => jsToLower a == jsToLower b
  | _, _ => false

/-- JS property access `tok.address` on an element of
`this.hiddenTokens`.  The ignored-token entries delivered by the tokens
controller are plain address strings (the registration loop at lines
97-101 of the source compares each entry directly against a candidate
address, and the spec §6 has `ignoredAddresses() -> set of Address`),
so reading `.address` off such an element yields JS `undefined`. -/
def strAddressProp (_tok : String) : Option String := none

/-- Modelled from the spec: the designated mainnet chain identifier, a
fixed constant compared exactly against the current chain id
(`MAINNET_CHAIN_ID` from `shared/constants/network`, not in the
provided source). -/
def MAINNET_CHAIN_ID : String := "0x1"

/-- Modelled from the spec: one minute in milliseconds (`MINUTE` from
`shared/constants/time`, not in the provided source; the spec fixes the
default poll period at 180000 ms = 3 minutes). -/
def MINUTE : Nat := 60000

/-- By default, poll every 3 minutes (`DEFAULT_INTERVAL = MINUTE * 3`). -/
def DEFAULT_INTERVAL : Nat := MINUTE * 3

/-- One entry of the static `@metamask/contract-metadata` registry:
the fields of it this controller reads. -/
structure ContractEntry where
  erc20 : Bool
  symbol : String
  decimals : Nat
deriving Repr, DecidableEq

/-- The static contract registry, a JS object iterated with `for ... in`
in insertion order: an association list from contract address to entry. -/
abbrev ContractMap := List (String × ContractEntry)

/-- JS `contracts[tokenAddress]`: exact (case-sensitive) key lookup. -/
def lookupContract (contracts : ContractMap) (addr : String) : Option ContractEntry :=
  (contracts.find? (fun p => p.1 == addr)).map Prod.snd

/-- The slice of the network collaborator this controller reads:
`this._network.store.getState().provider.chainId`. -/
structure Network where
  chainId : String
deriving Repr, DecidableEq

/-- The mutable state of a `DetectTokensController` that
`detectNewTokens` and `restartTokenDetection` read.  `isOpen` and
`isUnlocked` start out `undefined` (never assigned by the constructor);
`network`, `tokenAddresses` and `hiddenTokens` are `undefined` when the
corresponding collaborator was absent at construction. -/
structure DTState where
  isOpen : Option Bool
  isUnlocked : Option Bool
  network : Option Network
  selectedAddress : Option String
  tokenAddresses : Option (List String)
  hiddenTokens : Option (List String)
deriving Repr, DecidableEq

/-- Getter `get isActive() { return this.isOpen && this.isUnlocked; }`
reduced to its truthiness (it is only ever used in boolean position). -/
def isActive (st : DTState) : Bool :=
  jsTruthyBool st.isOpen && jsTruthyBool st.isUnlocked

/-- Source lines 71-73: `this.tokenAddresses.find((tokenAddress) =>
isEqualCaseInsensitive(tokenAddress, contractAddress))`.  JS `find`
returns the matching element or `undefined`. -/
def trackedMatch (tas : List String) (addr : String) : Option String :=
  tas.find? (fun t => isEqualCaseInsensitive (some t) (some addr))

/-- Source lines 74-76: `this.hiddenTokens.find((token) =>
isEqualCaseInsensitive(token.address, contractAddress))`.  The element
`token` is an address string, so `token.address` is `undefined`. -/
def hiddenMatchFilter (hs : List String) (addr : String) : Option String :=
  hs.find? (fun tok => isEqualCaseInsensitive (strAddressProp tok) (some addr))

/-- Source lines 96-101: `this.hiddenTokens.find((ignoredTokenAddress) =>
isEqualCaseInsensitive(ignoredTokenAddress, tokenAddress))`: the
re-check of the ignored list after the balance fetch, comparing each
entry directly as an address string. -/
def hiddenMatchRecheck (hs : List String) (addr : String) : Option String :=
  hs.find? (fun h => isEqualCaseInsensitive (some h) (some addr))

/-- One iteration of the candidate loop (source lines 68-80): decide
whether `addr` (a key of the registry, with entry `e`) is pushed onto
`tokensToDetect`.  The JS condition `contracts[contractAddress].erc20 &&
!find1 && !find2` short-circuits, so the `find` calls (which throw when
the receiver is `undefined`) only run when the earlier conjuncts hold;
`!found` is the negated JS truthiness of the found element. -/
def candKeep (ta ht : Option (List String)) (addr : String) (e : ContractEntry) :
    Except JsError Bool :=
  if e.erc20 then
    match ta with
    | none => .error .typeError
    | some tas =>
      if jsTruthyStr (trackedMatch tas addr) then .ok false
      else
        match ht with
        | none => .error .typeError
        | some hs => .ok (!jsTruthyStr (hiddenMatchFilter hs addr))
  else .ok false

/-- The candidate loop (source lines 66-80): build `tokensToDetect` by
walking the registry in order. -/
def tokensToDetectE (ta ht : Option (List String)) : ContractMap →
    Except JsError (List String)
  | [] => .ok []
  | (addr, e) :: rest =>
    match candKeep ta ht addr e with
    | .error er => .error er
    | .ok keep =>
      match tokensToDetectE ta ht rest with
      | .error er => .error er
      | .ok others => .ok (if keep then addr :: others else others)

/-- JS `result[index]` on the array returned by the balance call:
out-of-range access gives `undefined`, and an in-range entry may itself
be `undefined`. -/
def jsIndex (result : List (Option Nat)) (i : Nat) : Option Nat :=
  match result.get? i with
  | none => none
  | some b => b

/-- The `ignored` value the registration callback computes: the source
guards the `find` with `if (this.hiddenTokens.length)`, leaving
`ignored` as `undefined` when the list is empty.  Written as its own
definition here; the `let ignored` of the source is used exactly once,
in the `ignored === undefined` test of the registration condition. -/
def regIgnored (hs : List String) (addr : String) : Option String :=
  if hs.length != 0 then hiddenMatchRecheck hs addr else none

/-- One callback of the registration phase (source lines 94-109) for
the candidate `addr` sitting at position `i` of `tokensToDetect`:
compute `ignored` by re-checking `this.hiddenTokens` (throwing if that
is `undefined`, since the code reads `.length` and `.find` on it), then
call `addToken(tokenAddress, contracts[tokenAddress].symbol,
contracts[tokenAddress].decimals)` when `balance && !balance.isZero()
&& ignored === undefined`.  Returns the recorded `addToken` call, if
any. -/
def regStep (ht : Option (List String)) (contracts : ContractMap)
    (result : List (Option Nat)) (addr : String) (i : Nat) :
    Except JsError (Option (String × String × Nat)) :=
  match ht with
  | none => .error .typeError
  | some hs =>
    match jsIndex result i with
    | none => .ok none
    | some b =>
      if b != 0 && (regIgnored hs addr).isNone then
        match lookupContract contracts addr with
        | none => .error .typeError
        | some e => .ok (some (addr, e.symbol, e.decimals))
      else .ok none

/-- The registration phase (source lines 93-110): run `regStep` over
`tokensToDetect` with its positional index, collecting the `addToken`
calls in order. -/
def regPhaseAux (ht : Option (List String)) (contracts : ContractMap)
    (result : List (Option Nat)) : List String → Nat →
    Except JsError (List (String × String × Nat))
  | [], _ => .ok []
  | addr :: rest, i =>
    match regStep ht contracts result addr i with
    | .error er => .error er
    | .ok r =>
      match regPhaseAux ht contracts result rest (i + 1) with
      | .error er => .error er
      | .ok rs => .ok (r.toList ++ rs)

/-- The registration phase started at index 0. -/
def regPhase (ht : Option (List String)) (contracts : ContractMap)
    (cands : List String) (result : List (Option Nat)) :
    Except JsError (List (String × String × Nat)) :=
  regPhaseAux ht contracts result cands 0

/-- Stable warning tag logged when the batched balance fetch fails
(source lines 86-89). -/
def warnTag : String :=
  "MetaMask - DetectTokensController single call balance fetch failed"

/-- The observable effects of one call to `detectNewTokens`:
whether (and with which owner and contract list) the batched balance
fetch was invoked, the warnings logged (tag and error), and the
`addToken(address, symbol, decimals)` calls issued. -/
structure DetectEffects where
  fetchCalled : Option (Option String × List String)
  warnings : List (String × String)
  added : List (String × String × Nat)
deriving Repr, DecidableEq

/-- The empty effect record: no fetch, no warning, no registration. -/
def noEffects : DetectEffects := ⟨none, [], []⟩

/-- Source lines 58-111, `async detectNewTokens()`.  The balance oracle
(`_getTokenBalances`, source lines 113-125, which forwards
`[this.selectedAddress]` and the candidate list to the single-call
balance contract) is the external parameter `oracle`; its `Except.error`
is the rejection the `try`/`catch` at lines 83-91 catches. -/
def detectNewTokens (st : DTState) (contracts : ContractMap)
    (oracle : Option String → List String → Except String (List (Option Nat))) :
    Except JsError DetectEffects :=
  if !(isActive st) then .ok noEffects
  else
    match st.network with
    | none => .error .typeError
    | some nw =>
      if nw.chainId != MAINNET_CHAIN_ID then .ok noEffects
      else
        match tokensToDetectE st.tokenAddresses st.hiddenTokens contracts with
        | .error er => .error er
        | .ok cands =>
          match oracle st.selectedAddress cands with
          | .error e => .ok ⟨some (st.selectedAddress, cands), [(warnTag, e)], []⟩
          | .ok result =>
            match regPhase st.hiddenTokens contracts cands result with
            | .error er => .error er
            | .ok calls => .ok ⟨some (st.selectedAddress, cands), [], calls⟩

/-- The host timer system (`setInterval` / `clearInterval`): currently
active repeating timers as (handle id, period) pairs, plus a counter
for fresh handle ids. -/
structure TimerSys where
  nextId : Nat
  active : List (Nat × Nat)
deriving Repr, DecidableEq

/-- JS `clearInterval(id)`: remove the timer with that handle; a stale
or unknown handle is a no-op. -/
def clearIntervalT (sys : TimerSys) (id : Nat) : TimerSys :=
  { sys with active := sys.active.filter (fun p => !(p.1 == id)) }

/-- JS `setInterval(cb, ms)`: install a repeating timer and return its
fresh handle. -/
def setIntervalT (sys : TimerSys) (ms : Nat) : TimerSys × Nat :=
  ({ nextId := sys.nextId + 1, active := sys.active ++ [(sys.nextId, ms)] },
   sys.nextId)

/-- The interval setter (source lines 144-152):
`this._handle && clearInterval(this._handle); if (!interval) return;
this._handle = setInterval(() => this.detectNewTokens(), interval)`.
Takes and returns the timer system together with the controller's
`_handle` field.  Note that on a falsy interval the setter returns
early WITHOUT reassigning `_handle`, so the old (now cleared) handle
value is retained. -/
def setIntervalProp (sys : TimerSys) (h : Option Nat) (ms : Nat) :
    TimerSys × Option Nat :=
  let sys1 := match h with
    | some id => clearIntervalT sys id
    | none => sys
  if ms == 0 then (sys1, h)
  else
    let p := setIntervalT sys1 ms
    (p.1, some p.2)

/-- Source lines 132-138, `restartTokenDetection()`: guarded by
`this.isActive && this.selectedAddress`; when the guard passes it
invokes `detectNewTokens()` immediately (recorded as the returned
boolean) and assigns `this.interval = DEFAULT_INTERVAL`, which runs the
interval setter. -/
def restartTokenDetection (st : DTState) (sys : TimerSys) (h : Option Nat) :
    Bool × TimerSys × Option Nat :=
  if isActive st && jsTruthyStr st.selectedAddress then
    (true, setIntervalProp sys h DEFAULT_INTERVAL)
  else
    (false, sys, h)

/-- One token of the tokens-controller state (`state.tokens`): the
fields this controller reads. -/
structure Token where
  address : String
  symbol : String
  decimals : Nat
deriving Repr, DecidableEq

/-- The slice of the preferences collaborator read at construction:
`preferences.store.getState().selectedAddress`. -/
structure PreferencesState where
  selectedAddress : Option String
deriving Repr, DecidableEq

/-- The slice of the tokens controller read at construction:
`state.tokens` and `state.ignoredTokens` (the latter a list of plain
address strings). -/
structure TokensCState where
  tokens : List Token
  ignoredTokens : List String
deriving Repr, DecidableEq

/-- Constructor options (source lines 23-29); every collaborator
reference is optional.  The keyring memory store carries no data this
model reads, only a subscription, so presence alone is modelled. -/
structure Config where
  interval : Nat
  preferences : Option PreferencesState
  network : Option Network
  keyringMemStore : Option Unit
  tokensController : Option TokensCState
deriving Repr, DecidableEq

/-- A constructed controller: its detection state, which change feeds
it actually subscribed to (optional chaining at lines 41 and 47, and
the guard in the `keyringMemStore` setter, skip the subscription when
the collaborator is absent), and its timer handle. -/
structure Controller where
  st : DTState
  prefsSub : Bool
  tokensSub : Bool
  keyringSub : Bool
  handle : Option Nat
deriving Repr, DecidableEq

/-- The constructor (source lines 23-53).  `this.interval = interval`
runs the interval setter with `_handle` still `undefined`;
`this.network = network` stores the reference only when present
(lines 157-163); `isOpen` and `isUnlocked` are never assigned and stay
`undefined`; the snapshots use optional chaining, defaulting to
`undefined` when a collaborator is absent. -/
def mkController (cfg : Config) (sys : TimerSys) : Controller × TimerSys :=
  let p := setIntervalProp sys none cfg.interval
  let st : DTState :=
    { isOpen := none
      isUnlocked := none
      network := cfg.network
      selectedAddress := cfg.preferences.bind (fun pr => pr.selectedAddress)
      tokenAddresses := cfg.tokensController.map (fun tc => tc.tokens.map Token.address)
      hiddenTokens := cfg.tokensController.map TokensCState.ignoredTokens }
  (⟨st, cfg.preferences.isSome, cfg.tokensController.isSome,
    cfg.keyringMemStore.isSome, p.2⟩, p.1)

/-- Events a constructed controller can observe: collaborator change
notifications (delivered only if the corresponding subscription was
installed), the host assigning the `interval` or `network` setters, and
direct calls of the two public methods.  `detectEvt` mutates no
controller state; its effects are external. -/
inductive Event where
  | prefsChange (sel : Option String)
  | tokensChange (tokens : List Token) (ignored : List String)
  | keyringChange (unlocked : Bool)
  | setIntervalEvt (ms : Nat)
  | setNetworkEvt (nw : Option Network)
  | restartEvt
  | detectEvt
deriving Repr, DecidableEq

/-- The preferences subscription (source lines 41-46): on a changed
selected address, update the snapshot and call
`restartTokenDetection()`. -/
def onPrefsChange (c : Controller) (sys : TimerSys) (sel : Option String) :
    Controller × TimerSys :=
  if c.prefsSub then
    if c.st.selectedAddress ≠ sel then
      let c1 : Controller := { c with st := { c.st with selectedAddress := sel } }
      let r := restartTokenDetection c1.st sys c1.handle
      ({ c1 with handle := r.2.2 }, r.2.1)
    else (c, sys)
  else (c, sys)

/-- The tokens-controller subscription (source lines 47-52): refresh
both snapshots (with JS default parameters `tokens = []`,
`ignoredTokens = []` supplied by the caller of this model). -/
def onTokensChange (c : Controller) (tokens : List Token)
    (ignored : List String) : Controller :=
  if c.tokensSub then
    { c with st := { c.st with
        tokenAddresses := some (tokens.map Token.address)
        hiddenTokens := some ignored } }
  else c

/-- The keyring subscription (source lines 174-181): on a changed
unlock flag, store it, and when the new value is `true` call
`restartTokenDetection()`. -/
def onKeyringChange (c : Controller) (sys : TimerSys) (unlocked : Bool) :
    Controller × TimerSys :=
  if c.keyringSub then
    if c.st.isUnlocked ≠ some unlocked then
      let c1 : Controller := { c with st := { c.st with isUnlocked := some unlocked } }
      if unlocked then
        let r := restartTokenDetection c1.st sys c1.handle
        ({ c1 with handle := r.2.2 }, r.2.1)
      else (c1, sys)
    else (c, sys)
  else (c, sys)

/-- The network setter (source lines 157-163): `if (!network) return`,
otherwise store the reference (the web3 transport it also rebuilds has
no observable state in this model). -/
def setNetworkProp (c : Controller) (nw : Option Network) : Controller :=
  match nw with
  | none => c
  | some n => { c with st := { c.st with network := some n } }

/-- Apply one event to a controller together with the timer system. -/
def stepEvent (p : Controller × TimerSys) : Event → Controller × TimerSys
  | .prefsChange sel => onPrefsChange p.1 p.2 sel
  | .tokensChange tokens ignored => (onTokensChange p.1 tokens ignored, p.2)
  | .keyringChange unlocked => onKeyringChange p.1 p.2 unlocked
  | .setIntervalEvt ms =>
    let r := setIntervalProp p.2 p.1.handle ms
    ({ p.1 with handle := r.2 }, r.1)
  | .setNetworkEvt nw => (setNetworkProp p.1 nw, p.2)
  | .restartEvt =>
    let r := restartTokenDetection p.1.st p.2 p.1.handle
    ({ p.1 with handle := r.2.2 }, r.2.1)
  | .detectEvt => p

/-- Construct a controller and run a sequence of events. -/
def runEvents (cfg : Config) (sys : TimerSys) (events : List Event) :
    Controller × TimerSys :=
  events.foldl stepEvent (mkController cfg sys)

/-- Mark the host having set both external activation flags
(`isOpen` is assigned by the host outside this file; `isUnlocked` via
the keyring feed): the state of an activated detector. -/
def activate (st : DTState) : DTState :=
  { st with isOpen := some true, isUnlocked := some true }

/-- Closed form of the candidate list the code actually builds (proved
equal to `tokensToDetectE` below): the registry keys whose entry is
erc20 and which match no tracked address case-insensitively.  Note the
ignored list does not occur: the hidden-token check of the filter is
proved inoperative in `hiddenMatchFilter_none`. -/
def candidatesPure (tas : List String) (contracts : ContractMap) : List String :=
  contracts.filterMap
    (fun p => if p.2.erc20 && !(jsTruthyStr (trackedMatch tas p.1)) then some p.1 else none)

/-- Modelled from the spec (§3): the CandidateSet the spec prescribes,
fungible AddressBook addresses minus tracked addresses minus ignored
addresses, with case-insensitive membership checks throughout.  Written
from the spec sentences, to be compared against the candidate list the
code computes. -/
def candidateSetSpec (tas hs : List String) (contracts : ContractMap) : List String :=
  contracts.filterMap
    (fun p =>
      if p.2.erc20 &&
          !(tas.any (fun t => isEqualCaseInsensitive (some t) (some p.1))) &&
          !(hs.any (fun t => isEqualCaseInsensitive (some t) (some p.1))) then
        some p.1
      else none)

/-- Specification-side description of the registration phase: the
balance at result index `i` is attributed to the candidate at position
`i` of the candidate list (positional pairing), a candidate is
registered when that balance is present and nonzero and the candidate
is not in the re-checked ignored list, and the registered symbol and
decimals come from the registry entry of the candidate address. -/
def positionalSpecAux (hs : List String) (contracts : ContractMap)
    (result : List (Option Nat)) : List String → Nat → List (String × String × Nat)
  | [], _ => []
  | addr :: rest, i =>
    (match jsIndex result i with
      | none => none
      | some b =>
        if b != 0 && (hiddenMatchRecheck hs addr).isNone then
          (lookupContract contracts addr).map
            (fun e : ContractEntry => (addr, e.symbol, e.decimals))
        else none : Option (String × String × Nat)).toList
      ++ positionalSpecAux hs contracts result rest (i + 1)

/-- The positional registration description started at index 0. -/
def positionalRegistrationSpec (hs : List String) (contracts : ContractMap)
    (cands : List String) (result : List (Option Nat)) : List (String × String × Nat) :=
  positionalSpecAux hs contracts result cands 0

/-- The hidden-token check of the candidate filter never matches: its
predicate reads `.address` off an address string, getting `undefined`,
and `isEqualCaseInsensitive` is false on a non-string operand. -/
lemma hiddenMatchFilter_none : ∀ (hs : List String) (addr : String),
    hiddenMatchFilter hs addr = none
  | [], _ => rfl
  | tok :: t, addr => by
    unfold hiddenMatchFilter
    rw [List.find?_cons_of_neg _ (by simp [strAddressProp, isEqualCaseInsensitive])]
    exact hiddenMatchFilter_none t addr

/-- With both snapshots present, one iteration of the candidate loop
keeps exactly the erc20 keys that match no tracked address; the
hidden-token conjunct is constantly true. -/
lemma candKeep_eq (tas hs : List String) (addr : String) (e : ContractEntry) :
    candKeep (some tas) (some hs) addr e =
      .ok (e.erc20 && !(jsTruthyStr (trackedMatch tas addr))) := by
  have hn : jsTruthyStr none = false := rfl
  cases he : e.erc20 <;> cases ht : jsTruthyStr (trackedMatch tas addr) <;>
    simp [candKeep, he, ht, hiddenMatchFilter_none, hn]

/-- With both snapshots present, the candidate loop succeeds and
computes `candidatesPure`. -/
lemma tokensToDetectE_eq (tas hs : List String) : ∀ contracts : ContractMap,
    tokensToDetectE (some tas) (some hs) contracts = .ok (candidatesPure tas contracts)
  | [] => rfl
  | (addr, e) :: rest => by
    unfold tokensToDetectE
    rw [candKeep_eq, tokensToDetectE_eq tas hs rest]
    unfold candidatesPure
    rw [List.filterMap_cons]
    cases hb : e.erc20 && !(jsTruthyStr (trackedMatch tas addr)) <;> simp [hb, candidatesPure]

/-- Every candidate the code computes is a key of the registry, so the
registry lookup of the registration phase finds an entry for it. -/
lemma lookup_of_mem_candidatesPure (contracts : ContractMap) (tas : List String)
    (a : String) (h : a ∈ candidatesPure tas contracts) :
    (lookupContract contracts a).isSome = true := by
  unfold candidatesPure at h
  rw [List.mem_filterMap] at h
  obtain ⟨p, hp, heq⟩ := h
  have hpa : p.1 = a := by
    by_cases hc : (p.2.erc20 && !(jsTruthyStr (trackedMatch tas p.1))) = true
    · rw [if_pos hc] at heq
      exact Option.some.inj heq
    · rw [if_neg hc] at heq
      cases heq
  unfold lookupContract
  rw [Option.isSome_map']
  rw [List.find?_isSome]
  exact ⟨p, hp, by simp [hpa]⟩

/-- The `length` guard of the source is redundant: `find` on an empty
list is `undefined` anyway. -/
lemma regIgnored_eq (hs : List String) (addr : String) :
    regIgnored hs addr = hiddenMatchRecheck hs addr := by
  cases hs <;> rfl

/-- Shape of one registration step when the hidden-token snapshot is
present. -/
lemma regStep_some (hs : List String) (contracts : ContractMap)
    (result : List (Option Nat)) (addr : String) (i : Nat) :
    regStep (some hs) contracts result addr i =
      match jsIndex result i with
      | none => .ok none
      | some b =>
        if b != 0 && (hiddenMatchRecheck hs addr).isNone then
          match lookupContract contracts addr with
          | none => .error .typeError
          | some e => .ok (some (addr, e.symbol, e.decimals))
        else .ok none := by
  simp only [regStep, regIgnored_eq]

/-- Evaluation of one registration step when the balance at the
candidate's index is missing. -/
lemma regStep_none (hs : List String) (contracts : ContractMap)
    (result : List (Option Nat)) (addr : String) (i : Nat)
    (hj : jsIndex result i = none) :
    regStep (some hs) contracts result addr i = .ok none := by
  rw [regStep_some, hj]

/-- Evaluation of one registration step when the balance at the
candidate's index is present. -/
lemma regStep_eval (hs : List String) (contracts : ContractMap)
    (result : List (Option Nat)) (addr : String) (i : Nat) (b : Nat)
    (hj : jsIndex result i = some b) :
    regStep (some hs) contracts result addr i =
      if b != 0 && (hiddenMatchRecheck hs addr).isNone then
        match lookupContract contracts addr with
        | none => .error .typeError
        | some e => .ok (some (addr, e.symbol, e.decimals))
      else .ok none := by
  rw [regStep_some, hj]

/-- Unfolding of the registration phase on a nonempty candidate list. -/
lemma regPhaseAux_cons (ht : Option (List String)) (contracts : ContractMap)
    (result : List (Option Nat)) (addr : String) (rest : List String) (i : Nat)
    (calls : List (String × String × Nat)) :
    regPhaseAux ht contracts result (addr :: rest) i = .ok calls ↔
      ∃ r rs, regStep ht contracts result addr i = .ok r ∧
        regPhaseAux ht contracts result rest (i + 1) = .ok rs ∧
        calls = r.toList ++ rs := by
  have hunf : regPhaseAux ht contracts result (addr :: rest) i =
      (match regStep ht contracts result addr i with
        | .error er => .error er
        | .ok r =>
          match regPhaseAux ht contracts result rest (i + 1) with
          | .error er => .error er
          | .ok rs => .ok (r.toList ++ rs)) := rfl
  rw [hunf]
  cases hstep : regStep ht contracts result addr i with
  | error er => simp [hstep]
  | ok r =>
    cases hrec : regPhaseAux ht contracts result rest (i + 1) with
    | error er => simp [hstep, hrec]
    | ok rs =>
      simp only [hstep, hrec]
      constructor
      · intro h
        exact ⟨r, rs, rfl, rfl, (Except.ok.inj h).symm⟩
      · rintro ⟨r2, rs2, hr2, hrs2, hc⟩
        injection hr2 with hr3
        injection hrs2 with hrs3
        rw [hc, ← hr3, ← hrs3]

/-- A successful registration phase computes exactly the positional
description. -/
lemma regPhaseAux_eq (hs : List String) (contracts : ContractMap)
    (result : List (Option Nat)) :
    ∀ (cands : List String) (i : Nat) (calls : List (String × String × Nat)),
      regPhaseAux (some hs) contracts result cands i = .ok calls →
      calls = positionalSpecAux hs contracts result cands i
  | [], i, calls, h => by
    unfold regPhaseAux at h
    injection h with h2
    rw [← h2]
    rfl
  | addr :: rest, i, calls, h => by
    rw [regPhaseAux_cons] at h
    obtain ⟨r, rs, hstep, hrec, hcalls⟩ := h
    have ih := regPhaseAux_eq hs contracts result rest (i + 1) rs hrec
    rw [regStep_some] at hstep
    subst hcalls
    have hpos : positionalSpecAux hs contracts result (addr :: rest) i =
        (match jsIndex result i with
          | none => none
          | some b =>
            if b != 0 && (hiddenMatchRecheck hs addr).isNone then
              (lookupContract contracts addr).map
                (fun e : ContractEntry => (addr, e.symbol, e.decimals))
            else none : Option (String × String × Nat)).toList
          ++ positionalSpecAux hs contracts result rest (i + 1) := rfl
    rw [hpos, ← ih]
    cases hj : jsIndex result i with
    | none =>
      simp only [hj] at hstep ⊢
      injection hstep with h2
      rw [← h2]
    | some b =>
      simp only [hj] at hstep ⊢
      by_cases hc : (b != 0 && (hiddenMatchRecheck hs addr).isNone) = true
      · rw [if_pos hc] at hstep ⊢
        cases hl : lookupContract contracts addr with
        | none => rw [hl] at hstep; cases hstep
        | some e =>
          rw [hl] at hstep
          injection hstep with h2
          rw [← h2]
          rfl
      · rw [if_neg hc] at hstep ⊢
        injection hstep with h2
        rw [← h2]

/-- The registration phase never rejects when the hidden snapshot is
present and every candidate has a registry entry. -/
lemma regPhaseAux_ok (hs : List String) (contracts : ContractMap)
    (result : List (Option Nat)) :
    ∀ (cands : List String) (i : Nat),
      (∀ a ∈ cands, (lookupContract contracts a).isSome = true) →
      ∃ calls, regPhaseAux (some hs) contracts result cands i = .ok calls
  | [], _, _ => ⟨[], rfl⟩
  | addr :: rest, i, hlk => by
    obtain ⟨rs, hrs⟩ := regPhaseAux_ok hs contracts result rest (i + 1)
      (fun a ha => hlk a (List.mem_cons_of_mem _ ha))
    have hstep : ∃ r, regStep (some hs) contracts result addr i = .ok r := by
      cases hj : jsIndex result i with
      | none => exact ⟨none, regStep_none hs contracts result addr i hj⟩
      | some b =>
        rw [regStep_eval hs contracts result addr i b hj]
        by_cases hc : (b != 0 && (hiddenMatchRecheck hs addr).isNone) = true
        · obtain ⟨e, he⟩ := Option.isSome_iff_exists.mp
            (hlk addr (List.mem_cons_self addr rest))
          rw [if_pos hc, he]
          exact ⟨some (addr, e.symbol, e.decimals), rfl⟩
        · rw [if_neg hc]
          exact ⟨none, rfl⟩
    obtain ⟨r, hr⟩ := hstep
    exact ⟨r.toList ++ rs, by rw [regPhaseAux_cons]; exact ⟨r, rs, hr, hrs, rfl⟩⟩

/-- Membership in the positional description: an `addToken` call for
`(a, s, d)` is recorded exactly when some position `j` of the candidate
list holds `a` with a present nonzero balance at result index `i + j`,
the re-checked ignored list has no case-insensitive match for `a`, and
the registry entry of `a` has symbol `s` and decimals `d`. -/
lemma mem_positionalSpecAux (hs : List String) (contracts : ContractMap)
    (result : List (Option Nat)) (a s : String) (d : Nat) :
    ∀ (cands : List String) (i : Nat),
      ((a, s, d) ∈ positionalSpecAux hs contracts result cands i ↔
        (∃ j b, cands.get? j = some a ∧ jsIndex result (i + j) = some b ∧ b ≠ 0) ∧
          hiddenMatchRecheck hs a = none ∧
          ∃ e, lookupContract contracts a = some e ∧ e.symbol = s ∧ e.decimals = d)
  | [], i => by simp [positionalSpecAux]
  | addr :: rest, i => by
    unfold positionalSpecAux
    rw [List.mem_append,
      mem_positionalSpecAux hs contracts result a s d rest (i + 1)]
    constructor
    · rintro (hl | ⟨⟨j, b, hget, hidx, hb⟩, hrc, he⟩)
      · cases hj : jsIndex result i with
        | none => simp only [hj, Option.toList_none, List.not_mem_nil] at hl
        | some b =>
          simp only [hj] at hl
          by_cases hc : (b != 0 && (hiddenMatchRecheck hs addr).isNone) = true
          · rw [if_pos hc] at hl
            cases hlk : lookupContract contracts addr with
            | none => rw [hlk] at hl; simp at hl
            | some e =>
              rw [hlk] at hl
              simp only [Option.map_some', Option.toList_some, List.mem_singleton,
                Prod.mk.injEq] at hl
              obtain ⟨ha, hsym, hdec⟩ := hl
              have hc2 := hc
              simp only [Bool.and_eq_true] at hc2
              obtain ⟨hb, hrc⟩ := hc2
              refine ⟨⟨0, b, ?_, ?_, ?_⟩, ?_, e, ?_, hsym.symm, hdec.symm⟩
              · rw [← ha]; rfl
              · rw [Nat.add_zero]; exact hj
              · exact fun h0 => by subst h0; simp at hb
              · rw [ha]; exact Option.isNone_iff_eq_none.mp hrc
              · rw [ha]; exact hlk
          · rw [if_neg hc] at hl; simp at hl
      · refine ⟨⟨j + 1, b, by simpa using hget, ?_, hb⟩, hrc, he⟩
        rw [show i + (j + 1) = i + 1 + j by omega]
        exact hidx
    · rintro ⟨⟨j, b, hget, hidx, hb⟩, hrc, he⟩
      cases j with
      | zero =>
        left
        have ha : addr = a := by
          have := hget
          simp only [List.get?] at this
          exact Option.some.inj this
        obtain ⟨e, hlk, hsym, hdec⟩ := he
        rw [Nat.add_zero] at hidx
        simp only [hidx]
        have hcond : (b != 0 && (hiddenMatchRecheck hs addr).isNone) = true := by
          rw [Bool.and_eq_true]
          constructor
          · exact bne_iff_ne.mpr hb
          · rw [ha, hrc]; rfl
        rw [if_pos hcond, ha, hlk]
        simp [hsym, hdec]
      | succ j =>
        right
        refine ⟨⟨j, b, by simpa using hget, ?_, hb⟩, hrc, he⟩
        rw [show i + 1 + j = i + (j + 1) by omega]
        exact hidx

/-- Success path of a detection pass: activation and chain gates open,
both token snapshots present, oracle succeeds.  The pass fetches for
exactly the computed candidate list, logs nothing, and issues the
positionally-determined `addToken` calls. -/
lemma detect_success_eq (st : DTState) (contracts : ContractMap)
    (result : List (Option Nat)) (tas hs : List String) (nw : Network)
    (hact : isActive st = true) (hnw : st.network = some nw)
    (hch : nw.chainId = MAINNET_CHAIN_ID)
    (hta : st.tokenAddresses = some tas) (hht : st.hiddenTokens = some hs) :
    detectNewTokens st contracts (fun _ _ => .ok result) =
      .ok ⟨some (st.selectedAddress, candidatesPure tas contracts), [],
        positionalRegistrationSpec hs contracts (candidatesPure tas contracts) result⟩ := by
  obtain ⟨calls, hcalls⟩ := regPhaseAux_ok hs contracts result
    (candidatesPure tas contracts) 0
    (fun a ha => lookup_of_mem_candidatesPure contracts tas a ha)
  have heq := regPhaseAux_eq hs contracts result (candidatesPure tas contracts) 0
    calls hcalls
  simp only [detectNewTokens, hact, hnw, hch, hta, hht, tokensToDetectE_eq,
    regPhase, hcalls, heq, positionalRegistrationSpec, Bool.not_true,
    bne_self_eq_false, Bool.false_eq_true, if_false]

/-- Failure path of a detection pass: gates open, snapshots present,
oracle rejects.  The pass logs exactly one warning carrying the stable
tag and the error, registers nothing, and still resolves. -/
lemma detect_failure_eq (st : DTState) (contracts : ContractMap)
    (e : String) (tas hs : List String) (nw : Network)
    (hact : isActive st = true) (hnw : st.network = some nw)
    (hch : nw.chainId = MAINNET_CHAIN_ID)
    (hta : st.tokenAddresses = some tas) (hht : st.hiddenTokens = some hs) :
    detectNewTokens st contracts (fun _ _ => .error e) =
      .ok ⟨some (st.selectedAddress, candidatesPure tas contracts),
        [(warnTag, e)], []⟩ := by
  simp only [detectNewTokens, hact, hnw, hch, hta, hht, tokensToDetectE_eq,
    Bool.not_true, bne_self_eq_false, Bool.false_eq_true, if_false]

/-- Well-formedness of the controller's timer state: either no timer is
active, or exactly one is and the stored handle refers to it. -/
def GoodTimerState (sys : TimerSys) (h : Option Nat) : Prop :=
  sys.active = [] ∨ ∃ id ms, h = some id ∧ sys.active = [(id, ms)]

/-- After the cancel phase of the interval setter, no timer is active. -/
lemma clear_phase_active (sys : TimerSys) (h : Option Nat)
    (hg : GoodTimerState sys h) :
    (match h with
      | some id => clearIntervalT sys id
      | none => sys).active = [] := by
  cases hg with
  | inl he => cases h <;> simp [clearIntervalT, he]
  | inr hex =>
    obtain ⟨id, ms, hh, ha⟩ := hex
    rw [hh]
    simp [clearIntervalT, ha]

/-- Behaviour of one interval-setter call from a well-formed timer
state: the old timer is always cancelled; a zero (falsy) interval
installs nothing and keeps the stale handle; a positive interval
installs exactly one timer at that period, referenced by the new
handle. -/
lemma setIntervalProp_spec (sys : TimerSys) (h : Option Nat) (c : Nat)
    (hg : GoodTimerState sys h) :
    GoodTimerState (setIntervalProp sys h c).1 (setIntervalProp sys h c).2 ∧
      (c = 0 → (setIntervalProp sys h c).1.active = [] ∧
        (setIntervalProp sys h c).2 = h) ∧
      (c ≠ 0 → ∃ id, (setIntervalProp sys h c).2 = some id ∧
        (setIntervalProp sys h c).1.active = [(id, c)]) := by
  have hcl := clear_phase_active sys h hg
  by_cases hc : c = 0
  · subst hc
    have h1 : (setIntervalProp sys h 0).1.active = [] := hcl
    have h2 : (setIntervalProp sys h 0).2 = h := rfl
    exact ⟨Or.inl h1, fun _ => ⟨h1, h2⟩, fun hne => absurd rfl hne⟩
  · have hcb : (c == 0) = false := by simpa using hc
    simp only [setIntervalProp, hcb, Bool.false_eq_true, if_false, setIntervalT]
    refine ⟨Or.inr ⟨_, c, rfl, ?_⟩, fun h0 => absurd h0 hc, fun _ => ⟨_, rfl, ?_⟩⟩
    · simp [hcl]
    · simp [hcl]

/-- A sequence of interval-setter calls starting from a fresh timer
system. -/
def runIntervals (calls : List Nat) : TimerSys × Option Nat :=
  calls.foldl (fun p c => setIntervalProp p.1 p.2 c) (⟨0, []⟩, none)

/-- Invariant of iterated interval-setter calls from a well-formed
state: the state stays well-formed, the handle is non-null exactly if
it already was or some call carried a nonzero interval, and the active
timer periods are determined by the most recent call alone. -/
lemma foldl_setInterval_spec :
    ∀ (calls : List Nat) (sys : TimerSys) (h : Option Nat),
      GoodTimerState sys h →
      GoodTimerState
          (calls.foldl (fun p c => setIntervalProp p.1 p.2 c) (sys, h)).1
          (calls.foldl (fun p c => setIntervalProp p.1 p.2 c) (sys, h)).2 ∧
        ((calls.foldl (fun p c => setIntervalProp p.1 p.2 c) (sys, h)).2.isSome =
          (h.isSome || calls.any (fun c => c != 0))) ∧
        ((calls.foldl (fun p c => setIntervalProp p.1 p.2 c) (sys, h)).1.active.map
            Prod.snd =
          (match calls.getLast? with
            | none => sys.active.map Prod.snd
            | some ms => if ms != 0 then [ms] else []))
  | [], sys, h, hg => by
    refine ⟨hg, by simp, ?_⟩
    rfl
  | c :: rest, sys, h, hg => by
    obtain ⟨hg1, hzero, hpos⟩ := setIntervalProp_spec sys h c hg
    have ih := foldl_setInterval_spec rest (setIntervalProp sys h c).1
      (setIntervalProp sys h c).2 hg1
    rw [List.foldl_cons]
    refine ⟨ih.1, ?_, ?_⟩
    · rw [ih.2.1]
      by_cases hc : c = 0
      · subst hc
        rw [(hzero rfl).2]
        simp
      · obtain ⟨id, hid, -⟩ := hpos hc
        rw [hid]
        have : (c != 0) = true := by simpa using hc
        simp [this]
    · rw [ih.2.2]
      cases rest with
      | nil =>
        simp only [List.getLast?_singleton]
        by_cases hc : c = 0
        · subst hc
          rw [(hzero rfl).1]
          simp
        · obtain ⟨id, -, hact⟩ := hpos hc
          rw [hact]
          have : (c != 0) = true := by simpa using hc
          simp [this]
      | cons r rs =>
        rw [List.getLast?_cons_cons]
        obtain ⟨ms, hms⟩ := Option.isSome_iff_exists.mp
          (List.getLast?_isSome.mpr (List.cons_ne_nil r rs))
        rw [hms]

/-- No event handler or controller method assigns `isOpen`: stepping
any event preserves it. -/
lemma stepEvent_isOpen : ∀ (p : Controller × TimerSys) (e : Event),
    (stepEvent p e).1.st.isOpen = p.1.st.isOpen
  | p, .prefsChange sel => by
    simp only [stepEvent, onPrefsChange]
    split_ifs <;> rfl
  | p, .tokensChange tokens ignored => by
    simp only [stepEvent, onTokensChange]
    split_ifs <;> rfl
  | p, .keyringChange unlocked => by
    simp only [stepEvent, onKeyringChange]
    split_ifs <;> rfl
  | p, .setIntervalEvt ms => rfl
  | p, .setNetworkEvt nw => by cases nw <;> rfl
  | p, .restartEvt => rfl
  | p, .detectEvt => rfl

/-- Folding any event sequence preserves `isOpen`. -/
lemma foldl_stepEvent_isOpen : ∀ (events : List Event) (p : Controller × TimerSys),
    (events.foldl stepEvent p).1.st.isOpen = p.1.st.isOpen
  | [], _ => rfl
  | e :: rest, p => by
    rw [List.foldl_cons, foldl_stepEvent_isOpen rest (stepEvent p e),
      stepEvent_isOpen]

/-- A detection pass on a state whose three collaborator-derived fields
are present never rejects, whatever the activation flags, chain id and
oracle outcome. -/
lemma detect_isOk (st : DTState) (contracts : ContractMap)
    (oracle : Option String → List String → Except String (List (Option Nat)))
    (tas hs : List String) (nw : Network)
    (hnw : st.network = some nw) (hta : st.tokenAddresses = some tas)
    (hht : st.hiddenTokens = some hs) :
    (detectNewTokens st contracts oracle).isOk = true := by
  by_cases hact : isActive st = true
  · simp only [detectNewTokens, hact, hnw, hta, hht, tokensToDetectE_eq,
      Bool.not_true, Bool.false_eq_true, if_false]
    by_cases hch : (nw.chainId != MAINNET_CHAIN_ID) = true
    · rw [if_pos hch]
      rfl
    · rw [if_neg hch]
      cases horacle : oracle st.selectedAddress (candidatesPure tas contracts) with
      | error e => rfl
      | ok result =>
        obtain ⟨calls, hcalls⟩ := regPhaseAux_ok hs contracts result
          (candidatesPure tas contracts) 0
          (fun a ha => lookup_of_mem_candidatesPure contracts tas a ha)
        simp only [regPhase, hcalls]
        rfl
  · have hact2 : isActive st = false := by
      cases h : isActive st
      · rfl
      · exact absurd h hact
    simp only [detectNewTokens, hact2, Bool.not_false, if_true]
    rfl

/-- C1: in a successful detection pass (detector active, mainnet chain,
balance fetch succeeds), `addToken(address, symbol, decimals)` is
called for a candidate address exactly when the balance the oracle
returned for that candidate (at the candidate's position) is strictly
greater than zero and the candidate has no case-insensitive match in
the ignored list as re-checked after the fetch; the symbol and decimals
arguments are taken from the registry (AddressBook) entry for that
address. -/
theorem detect_addToken_iff (st : DTState) (contracts : ContractMap)
    (result : List (Option Nat)) (tas hs : List String) (nw : Network)
    (hact : isActive st = true) (hnw : st.network = some nw)
    (hch : nw.chainId = MAINNET_CHAIN_ID)
    (hta : st.tokenAddresses = some tas) (hht : st.hiddenTokens = some hs)
    (addr s : String) (d : Nat) :
    ∃ calls, detectNewTokens st contracts (fun _ _ => .ok result) =
        .ok ⟨some (st.selectedAddress, candidatesPure tas contracts), [], calls⟩ ∧
      ((addr, s, d) ∈ calls ↔
        (∃ j b, (candidatesPure tas contracts).get? j = some addr ∧
            jsIndex result j = some b ∧ 0 < b) ∧
          hiddenMatchRecheck hs addr = none ∧
          ∃ e, lookupContract contracts addr = some e ∧
            e.symbol = s ∧ e.decimals = d) := by
  refine ⟨_, detect_success_eq st contracts result tas hs nw hact hnw hch hta hht, ?_⟩
  rw [positionalRegistrationSpec, mem_positionalSpecAux]
  constructor
  · rintro ⟨⟨j, b, hg, hj, hb⟩, hrc, he⟩
    exact ⟨⟨j, b, hg, by simpa using hj, Nat.pos_of_ne_zero hb⟩, hrc, he⟩
  · rintro ⟨⟨j, b, hg, hj, hb⟩, hrc, he⟩
    exact ⟨⟨j, b, hg, by simpa using hj, Nat.pos_iff_ne_zero.mp hb⟩, hrc, he⟩

/-- Witness for C1 at the spec's Scenario 1: one erc20 registry entry
`0xa` with symbol `X` and 18 decimals, nothing tracked or ignored,
active mainnet detector, oracle returns balance 5. -/
theorem detect_addToken_iff_witness :
    ∃ calls,
      detectNewTokens
          ⟨some true, some true, some ⟨"0x1"⟩, some "0xowner", some [], some []⟩
          [("0xa", ⟨true, "X", 18⟩)] (fun _ _ => .ok [some 5]) =
        .ok ⟨some (some "0xowner", candidatesPure [] [("0xa", ⟨true, "X", 18⟩)]),
          [], calls⟩ ∧
      (("0xa", "X", 18) ∈ calls ↔
        (∃ j b, (candidatesPure [] [("0xa", ⟨true, "X", 18⟩)]).get? j = some "0xa" ∧
            jsIndex [some 5] j = some b ∧ 0 < b) ∧
          hiddenMatchRecheck [] "0xa" = none ∧
          ∃ e, lookupContract [("0xa", ⟨true, "X", 18⟩)] "0xa" = some e ∧
            e.symbol = "X" ∧ e.decimals = 18) :=
  detect_addToken_iff
    ⟨some true, some true, some ⟨"0x1"⟩, some "0xowner", some [], some []⟩
    [("0xa", ⟨true, "X", 18⟩)] [some 5] [] [] ⟨"0x1"⟩
    rfl rfl rfl rfl rfl "0xa" "X" 18

/-- C2 (evaluation at the failing input): with nothing tracked,
`0xabc` ignored, and the registry holding the erc20 entry `0xAbC` —
case-insensitively equal to the ignored address — an activated mainnet
detection pass still passes `0xAbC` to the batched balance fetch.  The
ignored list never excludes anything from the fetch request, because
the candidate filter reads `.address` off an address string and so
compares `undefined`.  (The same pass registers nothing, since the
registration re-check compares the entries directly.) -/
theorem ignored_not_excluded_from_fetch :
    detectNewTokens
        ⟨some true, some true, some ⟨"0x1"⟩, some "0xme", some [], some ["0xabc"]⟩
        [("0xAbC", ⟨true, "TKN", 18⟩)] (fun _ _ => .ok [some 7]) =
      .ok ⟨some (some "0xme", ["0xAbC"]), [], []⟩ ∧
    isEqualCaseInsensitive (some "0xabc") (some "0xAbC") = true := ⟨rfl, by decide⟩

/-- C3 (evaluation at the failing input): the candidate list the code
passes to the fetch equals the fungible registry addresses minus the
tracked addresses only; the spec-side CandidateSet additionally
subtracts the ignored addresses, and the two differ on this input
(`0xAbC` is ignored but still a candidate; `0xdef` is tracked and
correctly dropped; `0x222` is not erc20 and correctly dropped). -/
theorem candidate_set_missing_ignored_subtraction :
    tokensToDetectE (some ["0xDeF"]) (some ["0xabc"])
        [("0xAbC", ⟨true, "A", 18⟩), ("0xdef", ⟨true, "B", 8⟩),
          ("0x111", ⟨true, "C", 6⟩), ("0x222", ⟨false, "D", 0⟩)] =
      .ok ["0xAbC", "0x111"] ∧
    candidateSetSpec ["0xDeF"] ["0xabc"]
        [("0xAbC", ⟨true, "A", 18⟩), ("0xdef", ⟨true, "B", 8⟩),
          ("0x111", ⟨true, "C", 6⟩), ("0x222", ⟨false, "D", 0⟩)] =
      ["0x111"] := ⟨rfl, by decide⟩

/-- C4: `detectNewTokens` performs no oracle call and no registration,
returning silently with no effect and no error, unless both activation
flags are truthy AND the current chain id equals the mainnet constant —
for every combination of the flags and every chain identifier. -/
theorem detect_activation_chain_gate (st : DTState) (contracts : ContractMap)
    (oracle : Option String → List String → Except String (List (Option Nat)))
    (nw : Network) (hnw : st.network = some nw)
    (hgate : ¬(jsTruthyBool st.isOpen = true ∧ jsTruthyBool st.isUnlocked = true ∧
      nw.chainId = MAINNET_CHAIN_ID)) :
    detectNewTokens st contracts oracle = .ok noEffects := by
  by_cases hact : isActive st = true
  · have hpair : jsTruthyBool st.isOpen = true ∧ jsTruthyBool st.isUnlocked = true := by
      have h2 := hact
      rw [isActive, Bool.and_eq_true] at h2
      exact h2
    have hne : nw.chainId ≠ MAINNET_CHAIN_ID := fun hch =>
      hgate ⟨hpair.1, hpair.2, hch⟩
    have hbne : (nw.chainId != MAINNET_CHAIN_ID) = true := bne_iff_ne.mpr hne
    simp only [detectNewTokens, hact, hnw, hbne, Bool.not_true,
      Bool.false_eq_true, if_false, if_true]
  · have hact2 : isActive st = false := by
      cases h : isActive st
      · rfl
      · exact absurd h hact
    simp only [detectNewTokens, hact2, Bool.not_false, if_true]

/-- Witness for C4: UI open but wallet locked, on mainnet — the pass
does nothing. -/
theorem detect_activation_chain_gate_witness :
    detectNewTokens ⟨some true, some false, some ⟨"0x1"⟩, none, none, none⟩
        [("0xa", ⟨true, "X", 18⟩)] (fun _ _ => .ok []) = .ok noEffects :=
  detect_activation_chain_gate
    ⟨some true, some false, some ⟨"0x1"⟩, none, none, none⟩
    [("0xa", ⟨true, "X", 18⟩)] (fun _ _ => .ok []) ⟨"0x1"⟩ rfl (by simp [jsTruthyBool])

/-- C5: when the batched balance fetch fails, the pass logs exactly one
warning, carrying the stable operation tag together with the error,
performs zero `addToken` calls, and still resolves (the error is not
propagated to the caller). -/
theorem detect_fetch_failure_warns_once (st : DTState) (contracts : ContractMap)
    (e : String) (tas hs : List String) (nw : Network)
    (hact : isActive st = true) (hnw : st.network = some nw)
    (hch : nw.chainId = MAINNET_CHAIN_ID)
    (hta : st.tokenAddresses = some tas) (hht : st.hiddenTokens = some hs) :
    detectNewTokens st contracts (fun _ _ => .error e) =
      .ok ⟨some (st.selectedAddress, candidatesPure tas contracts),
        [(warnTag, e)], []⟩ := by
  simp only [detectNewTokens, hact, hnw, hch, hta, hht, tokensToDetectE_eq,
    Bool.not_true, bne_self_eq_false, Bool.false_eq_true, if_false]

/-- Witness for C5: a concrete failing fetch produces exactly one
tagged warning, no registration, and a resolved pass. -/
theorem detect_fetch_failure_warns_once_witness :
    detectNewTokens
        ⟨some true, some true, some ⟨"0x1"⟩, some "0xme", some [], some []⟩
        [("0xa", ⟨true, "X", 18⟩)] (fun _ _ => .error "rpc down") =
      .ok ⟨some (some "0xme", candidatesPure [] [("0xa", ⟨true, "X", 18⟩)]),
        [(warnTag, "rpc down")], []⟩ :=
  detect_fetch_failure_warns_once
    ⟨some true, some true, some ⟨"0x1"⟩, some "0xme", some [], some []⟩
    [("0xa", ⟨true, "X", 18⟩)] "rpc down" [] [] ⟨"0x1"⟩ rfl rfl rfl rfl rfl

/-- C6: `restartTokenDetection()` is a no-op (state and timers
untouched, no immediate pass) when the detector is not active or no
selected address is known; otherwise it invokes `detectNewTokens()`
immediately (the returned flag) and resets the poll interval to the
configured default via the interval setter, leaving exactly one active
timer with period `DEFAULT_INTERVAL`. -/
theorem restart_semantics (st : DTState) (sys : TimerSys) (h : Option Nat)
    (hg : GoodTimerState sys h) :
    ((isActive st && jsTruthyStr st.selectedAddress) = false →
      restartTokenDetection st sys h = (false, sys, h)) ∧
    ((isActive st && jsTruthyStr st.selectedAddress) = true →
      ∃ id sys2, restartTokenDetection st sys h = (true, sys2, some id) ∧
        sys2.active = [(id, DEFAULT_INTERVAL)]) := by
  constructor
  · intro hgate
    simp [restartTokenDetection, hgate]
  · intro hgate
    obtain ⟨-, -, hpos⟩ := setIntervalProp_spec sys h DEFAULT_INTERVAL hg
    obtain ⟨id, hid, hact⟩ := hpos (by decide)
    exact ⟨id, (setIntervalProp sys h DEFAULT_INTERVAL).1,
      by simp [restartTokenDetection, hgate, ← hid], hact⟩

/-- Witness for C6: an active detector with a selected address, fresh
timer system, no prior handle. -/
theorem restart_semantics_witness :
    ∃ id sys2,
      restartTokenDetection
          ⟨some true, some true, some ⟨"0x1"⟩, some "0xme", none, none⟩
          ⟨0, []⟩ none = (true, sys2, some id) ∧
        sys2.active = [(id, DEFAULT_INTERVAL)] :=
  (restart_semantics ⟨some true, some true, some ⟨"0x1"⟩, some "0xme", none, none⟩
    ⟨0, []⟩ none (Or.inl rfl)).2 rfl

/-- C7 counterexample: set the interval to 1000, then to 0.  Polling is
now disabled (no active timer) yet the stored handle is still non-null
(the setter returns early without clearing `_handle` on a falsy
interval), refuting the claimed invariant that the timer handle is
non-null iff the poll interval is positive. -/
theorem interval_setter_stale_handle :
    (runIntervals [1000, 0]).2.isSome = true ∧
      (runIntervals [1000, 0]).1.active = [] := ⟨rfl, rfl⟩

/-- C7 (amended): for every sequence of interval-setter calls from a
fresh timer system: at most one timer is active at any time (the setter
always cancels the previous one first); the handle is non-null iff some
call in the sequence carried a nonzero interval (it can stay non-null,
stale, after polling is disabled); an active timer exists exactly when
the most recent interval was nonzero, and then its period is that most
recent interval; the handle always references the active timer. -/
theorem interval_setter_invariant (calls : List Nat) :
    (runIntervals calls).1.active.length ≤ 1 ∧
      ((runIntervals calls).2.isSome = calls.any (fun c => c != 0)) ∧
      ((runIntervals calls).1.active.map Prod.snd =
        calls.getLast?.toList.filter (fun ms => ms != 0)) ∧
      ((runIntervals calls).1.active.all
        (fun p => (runIntervals calls).2 == some p.1) = true) := by
  obtain ⟨hg, hsome, hmap⟩ :=
    foldl_setInterval_spec calls ⟨0, []⟩ none (Or.inl rfl)
  refine ⟨?_, ?_, ?_, ?_⟩
  · cases hg with
    | inl he =>
      rw [runIntervals, he]
      decide
    | inr hex =>
      obtain ⟨id, ms, -, ha⟩ := hex
      rw [runIntervals, ha]
      simp
  · rw [runIntervals, hsome]
    rfl
  · rw [runIntervals, hmap]
    cases hl : calls.getLast? with
    | none => rfl
    | some ms =>
      cases hms : ms != 0 <;> simp [hms]
  · cases hg with
    | inl he =>
      rw [runIntervals, he]
      rfl
    | inr hex =>
      obtain ⟨id, ms, hh, ha⟩ := hex
      rw [runIntervals, ha, hh]
      simp

/-- C8 counterexample: a controller constructed with every collaborator
absent is constructible, but once the host activates it, the very next
detection pass rejects with a `TypeError` (reading `.store` off the
absent network reference) instead of degrading to a default. -/
theorem missing_collaborators_detect_raises :
    (detectNewTokens
        (activate (mkController ⟨DEFAULT_INTERVAL, none, none, none, none⟩
          ⟨0, []⟩).1.st)
        [("0xa", ⟨true, "X", 18⟩)] (fun _ _ => .ok [])).isOk = false := rfl

/-- C8 (amended): a controller is constructible from any partial
configuration; each absent collaborator skips its subscription, and the
constructor's snapshot reads yield the `undefined` defaults (no tracked
tokens, no ignored tokens, no selected address).  A missing preferences
store alone never makes a later pass raise: whenever the tokens
controller and the network are present, an activated detection pass
resolves for every oracle.  (When the network or the tokens controller
is absent, an activated pass raises — see the counterexample.) -/
theorem partial_config_degrades (cfg : Config) (sys : TimerSys)
    (contracts : ContractMap)
    (oracle : Option String → List String → Except String (List (Option Nat))) :
    (cfg.preferences = none → (mkController cfg sys).1.prefsSub = false ∧
      (mkController cfg sys).1.st.selectedAddress = none) ∧
    (cfg.tokensController = none → (mkController cfg sys).1.tokensSub = false ∧
      (mkController cfg sys).1.st.tokenAddresses = none ∧
      (mkController cfg sys).1.st.hiddenTokens = none) ∧
    (cfg.keyringMemStore = none → (mkController cfg sys).1.keyringSub = false) ∧
    (∀ tc nw, cfg.tokensController = some tc → cfg.network = some nw →
      (detectNewTokens (activate (mkController cfg sys).1.st) contracts
        oracle).isOk = true) := by
  refine ⟨?_, ?_, ?_, ?_⟩
  · intro hp
    constructor <;> simp [mkController, hp]
  · intro htc
    refine ⟨?_, ?_, ?_⟩ <;> simp [mkController, htc]
  · intro hk
    simp [mkController, hk]
  · intro tc nw htc hnw2
    refine detect_isOk _ contracts oracle (tc.tokens.map Token.address)
      tc.ignoredTokens nw ?_ ?_ ?_ <;> simp [mkController, activate, htc, hnw2]

/-- Witness for C8: preferences and keyring absent, network and tokens
controller present — the subscription is skipped, the selected address
defaults to `undefined`, and an activated pass with a failing oracle
still resolves. -/
theorem partial_config_degrades_witness :
    ((mkController ⟨DEFAULT_INTERVAL, none, some ⟨"0x1"⟩, none, some ⟨[], []⟩⟩
        ⟨0, []⟩).1.prefsSub = false ∧
      (mkController ⟨DEFAULT_INTERVAL, none, some ⟨"0x1"⟩, none, some ⟨[], []⟩⟩
        ⟨0, []⟩).1.st.selectedAddress = none) ∧
    (detectNewTokens
        (activate (mkController ⟨DEFAULT_INTERVAL, none, some ⟨"0x1"⟩, none,
          some ⟨[], []⟩⟩ ⟨0, []⟩).1.st)
        [("0xa", ⟨true, "X", 18⟩)] (fun _ _ => .error "down")).isOk = true :=
  ⟨(partial_config_degrades ⟨DEFAULT_INTERVAL, none, some ⟨"0x1"⟩, none,
      some ⟨[], []⟩⟩ ⟨0, []⟩ [("0xa", ⟨true, "X", 18⟩)]
      (fun _ _ => .error "down")).1 rfl,
    (partial_config_degrades ⟨DEFAULT_INTERVAL, none, some ⟨"0x1"⟩, none,
      some ⟨[], []⟩⟩ ⟨0, []⟩ [("0xa", ⟨true, "X", 18⟩)]
      (fun _ _ => .error "down")).2.2.2 ⟨[], []⟩ ⟨"0x1"⟩ rfl rfl⟩

/-- C9: the registration phase pairs balances with candidates
positionally — a successful phase computes exactly the positional
description (the value at result index `i` is attributed to the `i`-th
candidate), and a candidate whose index holds a missing or `undefined`
entry is never registered. -/
theorem registration_positional (hs : List String) (contracts : ContractMap)
    (cands : List String) (result : List (Option Nat))
    (calls : List (String × String × Nat))
    (h : regPhase (some hs) contracts cands result = .ok calls) :
    calls = positionalRegistrationSpec hs contracts cands result ∧
    (cands.Nodup → ∀ i a, cands.get? i = some a → jsIndex result i = none →
      ∀ s d, (a, s, d) ∉ calls) := by
  have heq := regPhaseAux_eq hs contracts result cands 0 calls h
  refine ⟨heq, ?_⟩
  intro hnd i a hget hnone s d hmem
  rw [heq] at hmem
  rw [mem_positionalSpecAux] at hmem
  obtain ⟨⟨j, b, hgj, hjj, -⟩, -, -⟩ := hmem
  have hlen : i < cands.length := by
    cases hlt : Nat.decLt i cands.length with
    | isTrue h2 => exact h2
    | isFalse h2 =>
      rw [List.get?_eq_none.mpr (Nat.le_of_not_lt h2)] at hget
      cases hget
  have hij : i = j := List.get?_inj hlen hnd (by rw [hget, hgj])
  rw [← hij] at hjj
  rw [Nat.zero_add] at hjj
  rw [hnone] at hjj
  cases hjj

/-- Witness for C9: two candidates, a one-element result array — the
first candidate is registered from its entry, the second has no balance
at its index and is dropped. -/
theorem registration_positional_witness :
    [("0xa", "X", 18)] =
      positionalRegistrationSpec [] [("0xa", ⟨true, "X", 18⟩)]
        ["0xa", "0xb"] [some 5] :=
  (registration_positional [] [("0xa", ⟨true, "X", 18⟩)] ["0xa", "0xb"]
    [some 5] [("0xa", "X", 18)] rfl).1

/-- C10: immediately after construction the detector is inactive, and
no event a constructed controller can observe (collaborator change
notifications, setter assignments, its own method calls) ever sets
`isOpen`; consequently, after any event sequence before the host
externally opens the UI flag, `detectNewTokens` resolves with no fetch,
no warning and no registration, and `restartTokenDetection` is a
no-op. -/
theorem constructed_inactive_until_host_opens (cfg : Config) (sys : TimerSys)
    (events : List Event) :
    (runEvents cfg sys events).1.st.isOpen = none ∧
    isActive (runEvents cfg sys events).1.st = false ∧
    (∀ (contracts : ContractMap)
      (oracle : Option String → List String → Except String (List (Option Nat))),
      detectNewTokens (runEvents cfg sys events).1.st contracts oracle =
        .ok noEffects) ∧
    (∀ (sys2 : TimerSys) (h2 : Option Nat),
      restartTokenDetection (runEvents cfg sys events).1.st sys2 h2 =
        (false, sys2, h2)) := by
  have hopen : (runEvents cfg sys events).1.st.isOpen = none := by
    rw [runEvents, foldl_stepEvent_isOpen]
    rfl
  have hact : isActive (runEvents cfg sys events).1.st = false := by
    rw [isActive, hopen]
    rfl
  refine ⟨hopen, hact, fun contracts oracle => ?_, fun sys2 h2 => ?_⟩
  · simp only [detectNewTokens, hact, Bool.not_false, if_true]
  · simp [restartTokenDetection, hact]

end DetectTokens
